import Mathlib

/-!
Verification development for the zig-pug template engine.

The repository ships the C API header (`include/zigpug.h`), a C usage
example and a Node.js binding; the Zig core (lexer, parser, renderer,
compiler facade) is declared by the header but its implementation is not
among the sources.  The core is therefore modelled here from the
specification, faithfully to its words, and the claims are settled
against that model.
-/

set_option maxRecDepth 10000

/-- Modelled from the spec: a tagged runtime value of the variable
context (string, 64-bit signed integer, boolean).  The Zig implementation
behind `zigpug_set_string` / `zigpug_set_int` / `zigpug_set_bool` is not
in the sources. -/
inductive Value where
  | str (s : String)
  | int (n : Int)
  | bool (b : Bool)
deriving DecidableEq

/-- Modelled from the spec: the variable context, a mapping from
case-sensitive variable name to tagged value. -/
abbrev Context := List (String × Value)

/-- Modelled from the spec: insert-or-overwrite of a context variable
(re-setting an existing key overwrites its value and may change its
type); the newest binding shadows older ones. -/
def setVar (ctx : Context) (k : String) (v : Value) : Context :=
  (k, v) :: ctx

/-- Modelled from the spec: case-sensitive lookup of a context variable;
the newest binding wins. -/
def lookupVar (ctx : Context) (k : String) : Option Value :=
  (ctx.find? (fun p => p.1 == k)).map (fun p => p.2)

/-- Modelled from the spec: a piece of a text line, either a literal run
or a `#\x7b...\x7d` interpolation placeholder holding the raw variable
name. -/
inductive TextPart where
  | lit (s : String)
  | interp (name : String)
deriving DecidableEq

/-- Modelled from the spec: the lexer's structural tokens, produced in
document order; indentation changes are explicit `indent`/`dedent`
tokens, one per level crossed. -/
inductive Token where
  | indent
  | dedent
  | tagName (s : String)
  | classLit (s : String)
  | idLit (s : String)
  | textSeg (parts : List TextPart)
  | kwIf (v : String)
  | kwElse
  | kwMixinDef (n : String)
  | kwMixinCall (n : String)
  | eoi
deriving DecidableEq

/-- Modelled from the spec: the lexer's error taxonomy. -/
inductive LexError where
  | BadIndent
  | UnterminatedInterpolation
deriving DecidableEq

/-- Characters allowed in identifiers (tag names, class/id names,
variable names). -/
def isIdentChar (c : Char) : Bool :=
  c.isAlphanum || c == '_' || c == '-'

/-- Split a character list at the longest identifier prefix. -/
def takeIdent : List Char → List Char × List Char
  | [] => ([], [])
  | c :: rest =>
    if isIdentChar c then
      let p := takeIdent rest
      (c :: p.1, p.2)
    else ([], c :: rest)

/-- Drop leading and trailing spaces. -/
def trimSpaces (cs : List Char) : List Char :=
  ((cs.dropWhile (fun c => c == ' ')).reverse.dropWhile (fun c => c == ' ')).reverse

/-- Turn an accumulated (reversed) literal run into zero or one literal
text parts. -/
def flushLit (acc : List Char) : List TextPart :=
  if acc.isEmpty then [] else [TextPart.lit (String.mk acc.reverse)]

/-- Modelled from the spec: one scanning pass over a free-text segment
for `#\x7b...\x7d` interpolation spans; text outside spans becomes
literal parts, text inside becomes interpolation parts holding the raw
variable name, and an unterminated opener is a lex error.  `inInterp`
tells whether the scanner is inside a span and `acc` holds the current
run, reversed. -/
def scanParts : Bool → List Char → List Char → Except LexError (List TextPart)
  | false, acc, [] => Except.ok (flushLit acc)
  | true, _, [] => Except.error LexError.UnterminatedInterpolation
  | false, acc, '#' :: '\x7b' :: rest =>
    (match scanParts true [] rest with
     | Except.error e => Except.error e
     | Except.ok ps => Except.ok (flushLit acc ++ ps))
  | false, acc, c :: rest => scanParts false (c :: acc) rest
  | true, nameAcc, '\x7d' :: rest =>
    (match scanParts false [] rest with
     | Except.error e => Except.error e
     | Except.ok ps => Except.ok (TextPart.interp (String.mk nameAcc.reverse) :: ps))
  | true, nameAcc, c :: rest => scanParts true (c :: nameAcc) rest

/-- Scan a whole free-text segment into text parts. -/
def scanText (cs : List Char) : Except LexError (List TextPart) :=
  scanParts false [] cs

/-- Finish one accumulated shorthand attribute: an id literal or a class
literal, the name accumulated in reverse. -/
def mkAttr (m : Bool × List Char) : Token :=
  if m.1 then Token.idLit (String.mk m.2.reverse) else Token.classLit (String.mk m.2.reverse)

/-- Scanning pass behind `lexAttrs`: `none` expects the next `.`/`#`
marker, `some (isId, acc)` is accumulating an attribute name. -/
def lexAttrsAux : Option (Bool × List Char) → List Char → List Token × List Char
  | none, '.' :: rest => lexAttrsAux (some (false, [])) rest
  | none, '#' :: rest => lexAttrsAux (some (true, [])) rest
  | none, cs => ([], cs)
  | some m, [] => ([mkAttr m], [])
  | some m, c :: rest =>
    if isIdentChar c then lexAttrsAux (some (m.1, c :: m.2)) rest
    else if c == '.' then
      let q := lexAttrsAux (some (false, [])) rest
      (mkAttr m :: q.1, q.2)
    else if c == '#' then
      let q := lexAttrsAux (some (true, [])) rest
      (mkAttr m :: q.1, q.2)
    else ([mkAttr m], c :: rest)

/-- Modelled from the spec: collect the `.class` / `#id` shorthand
suffixes attached to a tag head, in written order. -/
def lexAttrs (cs : List Char) : List Token × List Char :=
  lexAttrsAux none cs

/-- Modelled from the spec: lex a line head that is not a keyword — a
bare identifier is a tag name with attached shorthand, anything else is
free text; the remainder of the line (leading spaces dropped) is a text
segment. -/
def lexTagOrText (cs : List Char) : Except LexError (List Token) :=
  match cs with
  | [] => Except.ok []
  | c :: _ =>
    if c.isAlpha then
      let p := takeIdent cs
      let q := lexAttrs p.2
      let r := q.2.dropWhile (fun ch => ch == ' ')
      if r.isEmpty then Except.ok (Token.tagName (String.mk p.1) :: q.1)
      else
        match scanText r with
        | Except.error e => Except.error e
        | Except.ok ps => Except.ok (Token.tagName (String.mk p.1) :: q.1 ++ [Token.textSeg ps])
    else
      match scanText cs with
      | Except.error e => Except.error e
      | Except.ok ps => Except.ok [Token.textSeg ps]

/-- Modelled from the spec: lex the content of one line after its
indentation — leading keywords `if `, `else`, `mixin `, `+` are
recognised positionally and take precedence over tag-name
interpretation. -/
def lexContent (cs : List Char) : Except LexError (List Token) :=
  match cs with
  | 'i' :: 'f' :: ' ' :: rest => Except.ok [Token.kwIf (String.mk (trimSpaces rest))]
  | 'm' :: 'i' :: 'x' :: 'i' :: 'n' :: ' ' :: rest =>
    Except.ok [Token.kwMixinDef (String.mk (trimSpaces rest))]
  | '+' :: rest => Except.ok [Token.kwMixinCall (String.mk (trimSpaces rest))]
  | 'e' :: 'l' :: 's' :: 'e' :: rest =>
    if rest.all (fun c => c == ' ') then Except.ok [Token.kwElse] else lexTagOrText cs
  | _ => lexTagOrText cs

/-- Split source characters into lines at newline characters. -/
def splitLines : List Char → List (List Char)
  | [] => [[]]
  | '\n' :: rest => [] :: splitLines rest
  | c :: rest =>
    match splitLines rest with
    | [] => [[c]]
    | l :: ls => (c :: l) :: ls

/-- Modelled from the spec: pop the indentation stack down to depth `d`,
emitting one `dedent` token per popped level; a depth matching no stack
entry is a `BadIndent` lex error. -/
def popTo : List Nat → Nat → Except LexError (List Token × List Nat)
  | [], _ => Except.error LexError.BadIndent
  | top :: rest, d =>
    if d = top then Except.ok ([], top :: rest)
    else if d < top then
      match popTo rest d with
      | Except.error e => Except.error e
      | Except.ok p => Except.ok (Token.dedent :: p.1, p.2)
    else Except.error LexError.BadIndent

/-- Modelled from the spec: indentation handling for one non-blank line
of depth `d` — a depth above the stack top emits one `indent` and pushes,
otherwise the stack is popped to `d` with one `dedent` per level. -/
def indentStep (stack : List Nat) (d : Nat) : Except LexError (List Token × List Nat) :=
  match stack with
  | [] => Except.error LexError.BadIndent
  | top :: rest =>
    if d > top then Except.ok ([Token.indent], d :: top :: rest)
    else popTo (top :: rest) d

/-- Modelled from the spec: lex the lines of the template against the
indentation stack; blank lines are skipped without affecting indentation
tracking; at end of input one `dedent` is emitted per remaining stack
level, then `eoi`. -/
def lexLines (ls : List (List Char)) (stack : List Nat) : Except LexError (List Token) :=
  match ls with
  | [] => Except.ok (List.replicate (stack.length - 1) Token.dedent ++ [Token.eoi])
  | l :: rest =>
    if l.all (fun c => c == ' ') then lexLines rest stack
    else
      let d := (l.takeWhile (fun c => c == ' ')).length
      match indentStep stack d with
      | Except.error e => Except.error e
      | Except.ok p =>
        match lexContent (l.dropWhile (fun c => c == ' ')) with
        | Except.error e => Except.error e
        | Except.ok cts =>
          match lexLines rest p.2 with
          | Except.error e => Except.error e
          | Except.ok ts => Except.ok (p.1 ++ cts ++ ts)

/-- Modelled from the spec: the lexer contract
`tokenize(source) -> Result<sequence of Token, LexError>`, with the
indentation stack starting at depth 0.  The Zig lexer implementation is
not in the sources. -/
def tokenize (src : String) : Except LexError (List Token) :=
  lexLines (splitLines src.data) [0]

/-- Modelled from the spec: the parser's error taxonomy. -/
inductive ParseError where
  | UnexpectedToken
  | DanglingElse
  | UnclosedBlock
deriving DecidableEq

/-- Modelled from the spec: the Document tree's typed nodes — elements
with shorthand id/classes, text runs, conditionals, mixin definitions
and mixin invocations. -/
inductive Node where
  | element (tag : String) (id : Option String) (classes : List String) (children : List Node)
  | text (parts : List TextPart)
  | conditional (condVar : String) (thenBranch : List Node) (elseBranch : List Node)
  | mixinDef (name : String) (body : List Node)
  | mixinCall (name : String)

/-- Modelled from the spec: the Document's side table mapping mixin name
to body; a later definition with the same name overwrites the earlier
one (last-wins), realised here by prepending and first-match lookup. -/
abbrev MixTable := List (String × List Node)

/-- Look up a mixin body by name; the newest registration wins. -/
def lookupMixin (tbl : MixTable) (n : String) : Option (List Node) :=
  (tbl.find? (fun p => p.1 == n)).map (fun p => p.2)

/-- Modelled from the spec: the Document root — an ordered sequence of
top-level nodes plus the mixin side table built during parsing. -/
structure Document where
  nodes : List Node
  mixins : MixTable

/-- Collect the class/id attribute tokens attached to a tag token, in
written order; a later id overwrites an earlier one. -/
def collectAttrs (toks : List Token) (i : Option String) (cls : List String) :
    Option String × List String × List Token :=
  match toks with
  | Token.classLit c :: rest => collectAttrs rest i (cls ++ [c])
  | Token.idLit s :: rest => collectAttrs rest (some s) cls
  | _ => (i, cls, toks)

/-- Modelled from the spec: recursive-descent parsing of one block — a
maximal run of sibling nodes — returning the nodes, the updated mixin
table and the unconsumed tokens.  `indent` begins a child block of the
preceding block-introducing node and `dedent` closes the current block;
an `else` with no preceding `if` is a dangling-else error; a token where
a block introducer is expected is an unexpected-token error.  The fuel
argument bounds the recursion and is chosen large enough at the top
level (one unit per token plus one). -/
def parseBlock (fuel : Nat) (toks : List Token) (tbl : MixTable) :
    Except ParseError (List Node × MixTable × List Token) :=
  match fuel with
  | 0 => Except.error ParseError.UnclosedBlock
  | f + 1 =>
    match toks with
    | [] => Except.ok ([], tbl, [])
    | Token.eoi :: rest => Except.ok ([], tbl, Token.eoi :: rest)
    | Token.dedent :: rest => Except.ok ([], tbl, rest)
    | Token.indent :: _ => Except.error ParseError.UnexpectedToken
    | Token.kwElse :: _ => Except.error ParseError.DanglingElse
    | Token.classLit _ :: _ => Except.error ParseError.UnexpectedToken
    | Token.idLit _ :: _ => Except.error ParseError.UnexpectedToken
    | Token.textSeg ps :: rest =>
      match parseBlock f rest tbl with
      | Except.error e => Except.error e
      | Except.ok (ns, t, r) => Except.ok (Node.text ps :: ns, t, r)
    | Token.kwIf v :: rest =>
      match rest with
      | Token.indent :: r1 =>
        match parseBlock f r1 tbl with
        | Except.error e => Except.error e
        | Except.ok (thenB, t1, r2) =>
          match r2 with
          | Token.kwElse :: Token.indent :: r3 =>
            match parseBlock f r3 t1 with
            | Except.error e => Except.error e
            | Except.ok (elseB, t2, r4) =>
              match parseBlock f r4 t2 with
              | Except.error e => Except.error e
              | Except.ok (ns, t3, r5) =>
                Except.ok (Node.conditional v thenB elseB :: ns, t3, r5)
          | _ =>
            match parseBlock f r2 t1 with
            | Except.error e => Except.error e
            | Except.ok (ns, t2, r3) =>
              Except.ok (Node.conditional v thenB [] :: ns, t2, r3)
      | _ => Except.error ParseError.UnexpectedToken
    | Token.kwMixinDef n :: rest =>
      match rest with
      | Token.indent :: r1 =>
        match parseBlock f r1 tbl with
        | Except.error e => Except.error e
        | Except.ok (body, t1, r2) =>
          match parseBlock f r2 ((n, body) :: t1) with
          | Except.error e => Except.error e
          | Except.ok (ns, t2, r3) => Except.ok (Node.mixinDef n body :: ns, t2, r3)
      | _ => Except.error ParseError.UnexpectedToken
    | Token.kwMixinCall n :: rest =>
      match parseBlock f rest tbl with
      | Except.error e => Except.error e
      | Except.ok (ns, t, r) => Except.ok (Node.mixinCall n :: ns, t, r)
    | Token.tagName tg :: rest =>
      match collectAttrs rest none [] with
      | (i, cls, r1) =>
        match r1 with
        | Token.textSeg ps :: Token.indent :: r2 =>
          match parseBlock f r2 tbl with
          | Except.error e => Except.error e
          | Except.ok (kids, t1, r3) =>
            match parseBlock f r3 t1 with
            | Except.error e => Except.error e
            | Except.ok (ns, t2, r4) =>
              Except.ok (Node.element tg i cls (Node.text ps :: kids) :: ns, t2, r4)
        | Token.textSeg ps :: r2 =>
          match parseBlock f r2 tbl with
          | Except.error e => Except.error e
          | Except.ok (ns, t1, r3) =>
            Except.ok (Node.element tg i cls [Node.text ps] :: ns, t1, r3)
        | Token.indent :: r2 =>
          match parseBlock f r2 tbl with
          | Except.error e => Except.error e
          | Except.ok (kids, t1, r3) =>
            match parseBlock f r3 t1 with
            | Except.error e => Except.error e
            | Except.ok (ns, t2, r4) =>
              Except.ok (Node.element tg i cls kids :: ns, t2, r4)
        | r2 =>
          match parseBlock f r2 tbl with
          | Except.error e => Except.error e
          | Except.ok (ns, t1, r3) =>
            Except.ok (Node.element tg i cls [] :: ns, t1, r3)

/-- Modelled from the spec: the parser contract
`parse(tokens) -> Result<Document, ParseError>`; leftover tokens after
the top-level block (other than the trailing `eoi`) are an
unexpected-token error.  The Zig parser implementation is not in the
sources. -/
def parseDocument (toks : List Token) : Except ParseError Document :=
  match parseBlock (toks.length + 1) toks [] with
  | Except.error e => Except.error e
  | Except.ok (ns, tbl, rem) =>
    match rem with
    | [] => Except.ok ⟨ns, tbl⟩
    | [Token.eoi] => Except.ok ⟨ns, tbl⟩
    | _ => Except.error ParseError.UnexpectedToken

/-- Modelled from the spec: the renderer's error taxonomy; the
`DepthExceeded` case realises the render-time mixin call-depth guard the
spec's design notes prescribe against unbounded mixin self-reference. -/
inductive RenderError where
  | UndefinedVariable
  | UndefinedMixin
  | TypeMismatch
  | DepthExceeded
deriving DecidableEq

/-- Modelled from the spec: the rendered text form of a context value —
a string as-is, an integer in base-10 decimal form, a boolean as
`true`/`false`. -/
def renderValue : Value → String
  | Value.str s => s
  | Value.int n => toString n
  | Value.bool b => if b then "true" else "false"

/-- Modelled from the spec: render one text part — literals verbatim,
interpolations by strict context lookup; an absent variable is an
undefined-variable render error. -/
def renderPart (ctx : Context) : TextPart → Except RenderError String
  | TextPart.lit s => Except.ok s
  | TextPart.interp n =>
    match lookupVar ctx n with
    | some v => Except.ok (renderValue v)
    | none => Except.error RenderError.UndefinedVariable

/-- Render a sequence of text parts, concatenating in order and failing
fast on the first error. -/
def renderParts (ctx : Context) : List TextPart → Except RenderError String
  | [] => Except.ok ""
  | p :: ps =>
    match renderPart ctx p with
    | Except.error e => Except.error e
    | Except.ok s =>
      match renderParts ctx ps with
      | Except.error e => Except.error e
      | Except.ok s2 => Except.ok (s ++ s2)

/-- Modelled from the spec: the HTML void elements, which get no closing
tag. -/
def voidElements : List String :=
  ["area", "base", "br", "col", "embed", "hr", "img", "input", "link",
   "meta", "param", "source", "track", "wbr"]

/-- Decide whether a tag is a void element. -/
def isVoid (t : String) : Bool :=
  voidElements.contains t

/-- Serialize the ` id="..."` attribute when an id is present. -/
def idAttr : Option String → String
  | none => ""
  | some i => " id=\"" ++ i ++ "\""

/-- Serialize the ` class="..."` attribute when the class list is
non-empty, classes space-joined in written order. -/
def classAttr (cls : List String) : String :=
  match cls with
  | [] => ""
  | _ => " class=\"" ++ String.intercalate " " cls ++ "\""

/-- Serialize an element's opening tag: tag name, then id, then
classes, then the closing angle bracket. -/
def openTag (t : String) (i : Option String) (cls : List String) : String :=
  "<" ++ t ++ idAttr i ++ classAttr cls ++ ">"

mutual
/-- Modelled from the spec: render one Document node against the mixin
table and the variable context.  Elements serialize the opening tag,
children and (unless void) the closing tag; text runs render their
parts; conditionals resolve their variable with boolean selection,
type-mismatch on non-boolean values, and the permissive-false default on
absence; mixin definitions render nothing where declared; mixin calls
expand the registered body in place under the caller's context.  Every
recursive step consumes one unit of fuel, realising the render-time
call-depth guard of the design notes.  The Zig renderer implementation
is not in the sources. -/
def renderNode (fuel : Nat) (tbl : MixTable) (ctx : Context) (n : Node) :
    Except RenderError String :=
  match n with
  | Node.text ps => renderParts ctx ps
  | Node.mixinDef _ _ => Except.ok ""
  | Node.element t i cls kids =>
    if isVoid t then Except.ok (openTag t i cls)
    else
      match fuel with
      | 0 => Except.error RenderError.DepthExceeded
      | f + 1 =>
        match renderL f tbl ctx kids with
        | Except.error e => Except.error e
        | Except.ok inner => Except.ok (openTag t i cls ++ inner ++ "</" ++ t ++ ">")
  | Node.conditional v tb eb =>
    match fuel with
    | 0 => Except.error RenderError.DepthExceeded
    | f + 1 =>
      match lookupVar ctx v with
      | some (Value.bool true) => renderL f tbl ctx tb
      | some (Value.bool false) => renderL f tbl ctx eb
      | some _ => Except.error RenderError.TypeMismatch
      | none => renderL f tbl ctx eb
  | Node.mixinCall nm =>
    match lookupMixin tbl nm with
    | none => Except.error RenderError.UndefinedMixin
    | some body =>
      match fuel with
      | 0 => Except.error RenderError.DepthExceeded
      | f + 1 => renderL f tbl ctx body
/-- Render a node sequence in order, concatenating the pieces and
failing fast on the first error. -/
def renderL (fuel : Nat) (tbl : MixTable) (ctx : Context) (ns : List Node) :
    Except RenderError String :=
  match ns with
  | [] => Except.ok ""
  | n :: rest =>
    match fuel with
    | 0 => Except.error RenderError.DepthExceeded
    | f + 1 =>
      match renderNode f tbl ctx n with
      | Except.error e => Except.error e
      | Except.ok s =>
        match renderL f tbl ctx rest with
        | Except.error e => Except.error e
        | Except.ok s2 => Except.ok (s ++ s2)
end

mutual
/-- Structural size of a node, counting one per tree position. -/
def nodeSize : Node → Nat
  | Node.element _ _ _ kids => 1 + nodesSize kids
  | Node.text _ => 1
  | Node.conditional _ tb eb => 1 + nodesSize tb + nodesSize eb
  | Node.mixinDef _ body => 1 + nodesSize body
  | Node.mixinCall _ => 1
/-- Structural size of a node sequence. -/
def nodesSize : List Node → Nat
  | [] => 0
  | n :: rest => 1 + nodeSize n + nodesSize rest
end

/-- Total size of the bodies registered in a mixin table. -/
def tableSize (tbl : MixTable) : Nat :=
  match tbl with
  | [] => 0
  | p :: rest => nodesSize p.2 + tableSize rest

/-- Render-time fuel budget for a document: generous enough for every
document whose mixin expansion is acyclic. -/
def docFuel (doc : Document) : Nat :=
  (nodesSize doc.nodes + tableSize doc.mixins + 2) * (doc.mixins.length + 2)

/-- Modelled from the spec: the renderer contract
`render(document, context) -> Result<string, RenderError>`. -/
def renderDocument (ctx : Context) (doc : Document) : Except RenderError String :=
  renderL (docFuel doc) doc.mixins ctx doc.nodes

/-- Modelled from the spec: the structured compile error surfaced to the
caller, wrapping the failing stage's error. -/
inductive CompileError where
  | lex (e : LexError)
  | parse (e : ParseError)
  | render (e : RenderError)
deriving DecidableEq

/-- Modelled from the spec: the compiler facade
`compile(ctx, template_text) -> Result<html_text, CompileError>`,
orchestrating lexer, parser and renderer; a failure in any stage aborts
the whole call with that stage's error and no partial output.  The Zig
implementation behind `zigpug_compile` is not in the sources. -/
def compile (ctx : Context) (src : String) : Except CompileError String :=
  match tokenize src with
  | Except.error e => Except.error (CompileError.lex e)
  | Except.ok toks =>
    match parseDocument toks with
    | Except.error e => Except.error (CompileError.parse e)
    | Except.ok doc =>
      match renderDocument ctx doc with
      | Except.error e => Except.error (CompileError.render e)
      | Except.ok html => Except.ok html

/-- Modelled from the spec: the opaque context handle of the C API,
holding the variable mapping. -/
structure ZigPugContext where
  vars : Context
deriving DecidableEq

/-- Modelled from the spec: `zigpug_init` creates a fresh, empty
variable mapping. -/
def zigpug_init : ZigPugContext :=
  ⟨[]⟩

/-- Modelled from the spec: `zigpug_set_string` inserts-or-overwrites a
string variable, reporting success. -/
def zigpug_set_string (c : ZigPugContext) (k v : String) : ZigPugContext × Bool :=
  (⟨setVar c.vars k (Value.str v)⟩, true)

/-- Modelled from the spec: `zigpug_set_int` inserts-or-overwrites a
64-bit signed integer variable, reporting success. -/
def zigpug_set_int (c : ZigPugContext) (k : String) (v : Int) : ZigPugContext × Bool :=
  (⟨setVar c.vars k (Value.int v)⟩, true)

/-- Modelled from the spec: `zigpug_set_bool` inserts-or-overwrites a
boolean variable, reporting success. -/
def zigpug_set_bool (c : ZigPugContext) (k : String) (v : Bool) : ZigPugContext × Bool :=
  (⟨setVar c.vars k (Value.bool v)⟩, true)

/-- Modelled from the spec: `zigpug_compile` compiles against the
context's current contents; the context is read-only during the render
pass, so the call returns it unchanged alongside the compile result. -/
def zigpug_compile (c : ZigPugContext) (src : String) :
    ZigPugContext × Except CompileError String :=
  (c, compile c.vars src)

/-- Modelled from the spec and the header's ownership contract: the
allocation state of handles the caller owns — live context handles and
live result strings, identified by numeric ids. -/
structure AllocState where
  liveContexts : List Nat
  liveStrings : List Nat
deriving DecidableEq

/-- Modelled from the spec: `zigpug_free` releases a context handle; the
header documents that the argument can be NULL (here `none`), in which
case the call is a no-op.  The Zig implementation is not in the
sources. -/
def zigpug_free (p : Option Nat) (s : AllocState) : AllocState :=
  match p with
  | none => s
  | some h => { s with liveContexts := s.liveContexts.erase h }

/-- Modelled from the spec: `zigpug_free_string` releases a result
string; the header documents that the argument can be NULL (here
`none`), in which case the call is a no-op.  The Zig implementation is
not in the sources. -/
def zigpug_free_string (p : Option Nat) (s : AllocState) : AllocState :=
  match p with
  | none => s
  | some h => { s with liveStrings := s.liveStrings.erase h }

/-- The two-branch if/else template of the repository's C example. -/
def tmplIfElse : String :=
  "if loggedIn\n  p Welcome back!\nelse\n  p Please log in"

/-- A mixin defined once and invoked twice. -/
def tmplMixinTwice : String :=
  "mixin button\n  button.btn Click me!\n+button\n+button"

/-- A mixin with an interpolation in its body, invoked twice. -/
def tmplMixinInterp : String :=
  "mixin greet\n  p Hi #\x7bwho\x7d!\n+greet\n+greet"

theorem renderPart_ext (c1 c2 : Context) (hc : ∀ k, lookupVar c1 k = lookupVar c2 k)
    (p : TextPart) : renderPart c1 p = renderPart c2 p := by
  cases p with
  | lit s => rfl
  | interp nm => simp only [renderPart, hc nm]

theorem renderParts_ext (c1 c2 : Context) (hc : ∀ k, lookupVar c1 k = lookupVar c2 k) :
    ∀ ps, renderParts c1 ps = renderParts c2 ps := by
  intro ps
  induction ps with
  | nil => rfl
  | cons p ps ih => simp only [renderParts, renderPart_ext c1 c2 hc p, ih]

/-- C1: compiling `div.container Hello World` against the empty context
succeeds with exactly the expected single-element HTML. -/
theorem claimC1_compile_div_container :
    compile [] "div.container Hello World" =
      Except.ok "<div class=\"container\">Hello World</div>" := rfl

/-- C9: a compile call returns the variable context unchanged — the same
handle, with every key resolving to the same value as before the
call — whether the compile succeeded or failed. -/
theorem claimC9_context_unchanged : ∀ (c : ZigPugContext) (src : String),
    (zigpug_compile c src).1 = c ∧
    ∀ k, lookupVar (zigpug_compile c src).1.vars k = lookupVar c.vars k := by
  intro c src
  exact ⟨rfl, fun _ => rfl⟩

/-- C10: freeing a NULL context handle and freeing a NULL string are
both no-ops on the allocation state. -/
theorem claimC10_free_null_noop : ∀ s : AllocState,
    zigpug_free none s = s ∧ zigpug_free_string none s = s :=
  fun _ => ⟨rfl, rfl⟩

/-- C2: an interpolation part resolves its variable in the context — a
string value is emitted as-is, an integer in base-10 decimal form, a
boolean as "true"/"false" — while an absent variable fails the part,
fails the enclosing text run fail-fast, and fails the whole compile with
an undefined-variable render error. -/
theorem claimC2_interpolation : ∀ (ctx : Context) (nm s : String) (n : Int) (b : Bool)
    (p : TextPart) (ps : List TextPart) (e : RenderError),
    (lookupVar ctx nm = some (Value.str s) →
      renderPart ctx (TextPart.interp nm) = Except.ok s) ∧
    (lookupVar ctx nm = some (Value.int n) →
      renderPart ctx (TextPart.interp nm) = Except.ok (toString n)) ∧
    (lookupVar ctx nm = some (Value.bool b) →
      renderPart ctx (TextPart.interp nm) = Except.ok (if b then "true" else "false")) ∧
    (lookupVar ctx nm = none →
      renderPart ctx (TextPart.interp nm) = Except.error RenderError.UndefinedVariable) ∧
    (renderPart ctx p = Except.error e → renderParts ctx (p :: ps) = Except.error e) ∧
    compile [] "p Hello #\x7bname\x7d!" =
      Except.error (CompileError.render RenderError.UndefinedVariable) ∧
    compile [("name", Value.str "John Doe")] "p Hello #\x7bname\x7d!" =
      Except.ok "<p>Hello John Doe!</p>" := by
  intro ctx nm s n b p ps e
  refine ⟨?_, ?_, ?_, ?_, ?_, rfl, rfl⟩
  · intro h; simp [renderPart, h, renderValue]
  · intro h; simp [renderPart, h, renderValue]
  · intro h; simp [renderPart, h, renderValue]
  · intro h; simp [renderPart, h]
  · intro h; simp [renderParts, h]

theorem claimC2_witness :
    renderPart [("k", Value.str "v")] (TextPart.interp "k") = Except.ok "v" ∧
    renderPart [("k", Value.int 30)] (TextPart.interp "k") = Except.ok (toString (30 : Int)) ∧
    renderPart [("k", Value.bool false)] (TextPart.interp "k") =
      Except.ok (if false then "true" else "false") ∧
    renderPart [] (TextPart.interp "k") = Except.error RenderError.UndefinedVariable ∧
    renderParts [] [TextPart.interp "k"] = Except.error RenderError.UndefinedVariable :=
  ⟨(claimC2_interpolation [("k", Value.str "v")] "k" "v" 30 false (TextPart.lit "") []
      RenderError.TypeMismatch).1 rfl,
   (claimC2_interpolation [("k", Value.int 30)] "k" "v" 30 false (TextPart.lit "") []
      RenderError.TypeMismatch).2.1 rfl,
   (claimC2_interpolation [("k", Value.bool false)] "k" "v" 30 false (TextPart.lit "") []
      RenderError.TypeMismatch).2.2.1 rfl,
   (claimC2_interpolation [] "k" "v" 30 false (TextPart.lit "") []
      RenderError.TypeMismatch).2.2.2.1 rfl,
   (claimC2_interpolation [] "k" "v" 30 false (TextPart.interp "k") []
      RenderError.UndefinedVariable).2.2.2.2.1 rfl⟩

/-- C3: a conditional node resolves its variable — boolean true renders
the then branch, boolean false the else branch, a non-boolean value is a
type-mismatch render error, and an absent variable is treated as false,
rendering the else path without failing. -/
theorem claimC3_conditional : ∀ (f : Nat) (tbl : MixTable) (ctx : Context) (v : String)
    (tb eb : List Node) (s : String) (n : Int),
    (lookupVar ctx v = some (Value.bool true) →
      renderNode (f + 1) tbl ctx (Node.conditional v tb eb) = renderL f tbl ctx tb) ∧
    (lookupVar ctx v = some (Value.bool false) →
      renderNode (f + 1) tbl ctx (Node.conditional v tb eb) = renderL f tbl ctx eb) ∧
    (lookupVar ctx v = some (Value.str s) →
      renderNode (f + 1) tbl ctx (Node.conditional v tb eb) =
        Except.error RenderError.TypeMismatch) ∧
    (lookupVar ctx v = some (Value.int n) →
      renderNode (f + 1) tbl ctx (Node.conditional v tb eb) =
        Except.error RenderError.TypeMismatch) ∧
    (lookupVar ctx v = none →
      renderNode (f + 1) tbl ctx (Node.conditional v tb eb) = renderL f tbl ctx eb) ∧
    compile [("loggedIn", Value.bool true)] tmplIfElse = Except.ok "<p>Welcome back!</p>" ∧
    compile [("loggedIn", Value.bool false)] tmplIfElse = Except.ok "<p>Please log in</p>" ∧
    compile [] tmplIfElse = Except.ok "<p>Please log in</p>" ∧
    compile [("loggedIn", Value.int 3)] tmplIfElse =
      Except.error (CompileError.render RenderError.TypeMismatch) := by
  intro f tbl ctx v tb eb s n
  refine ⟨?_, ?_, ?_, ?_, ?_, rfl, rfl, rfl, rfl⟩ <;>
    (intro h; simp [renderNode, h])

theorem claimC3_witness :
    renderNode 1 [] [("v", Value.bool true)] (Node.conditional "v" [] []) =
      renderL 0 [] [("v", Value.bool true)] [] ∧
    renderNode 1 [] [("v", Value.bool false)] (Node.conditional "v" [] []) =
      renderL 0 [] [("v", Value.bool false)] [] ∧
    renderNode 1 [] [("v", Value.str "x")] (Node.conditional "v" [] []) =
      Except.error RenderError.TypeMismatch ∧
    renderNode 1 [] [("v", Value.int 3)] (Node.conditional "v" [] []) =
      Except.error RenderError.TypeMismatch ∧
    renderNode 1 [] [] (Node.conditional "v" [] []) = renderL 0 [] [] [] :=
  ⟨(claimC3_conditional 0 [] [("v", Value.bool true)] "v" [] [] "x" 3).1 rfl,
   (claimC3_conditional 0 [] [("v", Value.bool false)] "v" [] [] "x" 3).2.1 rfl,
   (claimC3_conditional 0 [] [("v", Value.str "x")] "v" [] [] "x" 3).2.2.1 rfl,
   (claimC3_conditional 0 [] [("v", Value.int 3)] "v" [] [] "x" 3).2.2.2.1 rfl,
   (claimC3_conditional 0 [] [] "v" [] [] "x" 3).2.2.2.2.1 rfl⟩

theorem popTo_not_mem : ∀ (stack : List Nat) (d : Nat), d ∉ stack →
    popTo stack d = Except.error LexError.BadIndent := by
  intro stack
  induction stack with
  | nil => intro d _; rfl
  | cons top rest ih =>
    intro d hd
    have h1 : ¬d = top := by intro h; exact hd (h ▸ List.mem_cons_self d _)
    have h2 : d ∉ rest := fun h => hd (List.mem_cons_of_mem top h)
    simp only [popTo, if_neg h1]
    by_cases h3 : d < top
    · simp only [if_pos h3, ih d h2]
    · simp only [if_neg h3]

theorem popTo_mem : ∀ (stack : List Nat) (d : Nat),
    List.Pairwise (fun a b => b < a) stack → d ∈ stack →
    popTo stack d =
      Except.ok (List.replicate ((stack.takeWhile fun x => decide (d < x)).length) Token.dedent,
        stack.dropWhile fun x => decide (d < x)) ∧
    (stack.dropWhile fun x => decide (d < x)).head? = some d := by
  intro stack
  induction stack with
  | nil => intro d _ hd; exact absurd hd (List.not_mem_nil d)
  | cons top rest ih =>
    intro d hp hd
    by_cases h1 : d = top
    · subst h1
      have hx : decide (d < d) = false := by simp
      simp [popTo, List.takeWhile, List.dropWhile, hx]
    · have hmem : d ∈ rest := (List.mem_cons.mp hd).resolve_left h1
      have hlt : d < top := (List.pairwise_cons.mp hp).1 d hmem
      have hrest := ih d (List.pairwise_cons.mp hp).2 hmem
      have hx : decide (d < top) = true := by simpa using hlt
      constructor
      · simp only [popTo, if_neg h1, if_pos hlt, hrest.1, List.takeWhile, hx,
          List.dropWhile, List.length_cons, List.replicate_succ]
      · simpa only [List.dropWhile, hx] using hrest.2

/-- C4: the lexer's indentation stack starts at depth 0; a line deeper
than the stack top emits exactly one indent and pushes its depth, a
shallower line emits one dedent per popped level until the top matches,
a depth matching no stack entry is a bad-indent lex error, and end of
input emits one dedent per remaining stack level followed by the
end-of-input token. -/
theorem claimC4_indentation : ∀ (d top : Nat) (rest : List Nat) (src : String),
    (top < d → indentStep (top :: rest) d = Except.ok ([Token.indent], d :: top :: rest)) ∧
    (List.Pairwise (fun a b => b < a) (top :: rest) → d ∈ top :: rest →
      indentStep (top :: rest) d =
        Except.ok
          (List.replicate (((top :: rest).takeWhile fun x => decide (d < x)).length)
            Token.dedent,
           (top :: rest).dropWhile fun x => decide (d < x)) ∧
      ((top :: rest).dropWhile fun x => decide (d < x)).head? = some d) ∧
    (d < top → d ∉ top :: rest → indentStep (top :: rest) d = Except.error LexError.BadIndent) ∧
    (∀ stack : List Nat,
      lexLines [] stack =
        Except.ok (List.replicate (stack.length - 1) Token.dedent ++ [Token.eoi])) ∧
    tokenize src = lexLines (splitLines src.data) [0] ∧
    tokenize "if x\n    p a\n  p b" = Except.error LexError.BadIndent := by
  intro d top rest src
  refine ⟨?_, ?_, ?_, fun _ => rfl, rfl, rfl⟩
  · intro h
    simp only [indentStep, if_pos h]
  · intro hp hd
    have hle : ¬top < d := by
      rcases List.mem_cons.mp hd with h | h
      · omega
      · have := (List.pairwise_cons.mp hp).1 d h; omega
    simpa only [indentStep, if_neg hle] using popTo_mem (top :: rest) d hp hd
  · intro h1 h2
    have hle : ¬top < d := by omega
    simpa only [indentStep, if_neg hle] using popTo_not_mem (top :: rest) d h2

theorem claimC4_witness :
    indentStep [0] 2 = Except.ok ([Token.indent], [2, 0]) ∧
    indentStep [4, 2, 0] 2 = Except.ok (List.replicate 1 Token.dedent, [2, 0]) ∧
    indentStep [4, 0] 2 = Except.error LexError.BadIndent := by
  refine ⟨(claimC4_indentation 2 0 [] "").1 (by decide), ?_, ?_⟩
  · have h := ((claimC4_indentation 2 4 [2, 0] "").2.1 (by decide) (by decide)).1
    simpa using h
  · exact (claimC4_indentation 2 4 [0] "").2.2.1 (by decide) (by decide)

theorem render_fuel_mono : ∀ (f g : Nat) (tbl : MixTable) (ctx : Context), f ≤ g →
    (∀ (n : Node) (r : Except RenderError String),
      r ≠ Except.error RenderError.DepthExceeded →
      renderNode f tbl ctx n = r → renderNode g tbl ctx n = r) ∧
    (∀ (ns : List Node) (r : Except RenderError String),
      r ≠ Except.error RenderError.DepthExceeded →
      renderL f tbl ctx ns = r → renderL g tbl ctx ns = r) := by
  intro f
  induction f with
  | zero =>
    intro g tbl ctx _
    cases g with
    | zero => exact ⟨fun _ _ _ h => h, fun _ _ _ h => h⟩
    | succ g' =>
      constructor
      · intro n r hr h
        cases n with
        | text ps => simpa [renderNode] using h
        | mixinDef nm body => simpa [renderNode] using h
        | element t i cls kids =>
          by_cases hv : isVoid t
          · simp only [renderNode, hv, if_true] at h ⊢; exact h
          · simp only [renderNode, hv, if_false] at h
            exact absurd h.symm hr
        | conditional v tb eb =>
          simp only [renderNode] at h
          exact absurd h.symm hr
        | mixinCall nm =>
          simp only [renderNode] at h ⊢
          cases hm : lookupMixin tbl nm with
          | none => rw [hm] at h; exact h
          | some body =>
            rw [hm] at h
            exact absurd h.symm hr
      · intro ns r hr h
        cases ns with
        | nil => simpa [renderL] using h
        | cons n rest =>
          simp only [renderL] at h
          exact absurd h.symm hr
  | succ f ihf =>
    intro g tbl ctx hg
    obtain ⟨g', rfl⟩ : ∃ g', g = g' + 1 := ⟨g - 1, by omega⟩
    have ih := ihf g' tbl ctx (by omega)
    constructor
    · intro n r hr h
      cases n with
      | text ps => simpa [renderNode] using h
      | mixinDef nm body => simpa [renderNode] using h
      | element t i cls kids =>
        by_cases hv : isVoid t
        · simp only [renderNode, hv, if_true] at h ⊢; exact h
        · simp only [renderNode, hv, if_false] at h ⊢
          cases hk : renderL f tbl ctx kids with
          | error e =>
            rw [hk] at h
            have he : Except.error e ≠ (Except.error RenderError.DepthExceeded :
                Except RenderError String) := by
              intro hcon
              rw [hcon] at h
              exact hr h.symm
            rw [ih.2 kids (Except.error e) he hk]
            exact h
          | ok inner =>
            rw [hk] at h
            rw [ih.2 kids (Except.ok inner) (by simp) hk]
            exact h
      | conditional v tb eb =>
        simp only [renderNode] at h ⊢
        cases hl : lookupVar ctx v with
        | none => rw [hl] at h; exact ih.2 eb r hr h
        | some val =>
          rw [hl] at h
          cases val with
          | str s => exact h
          | int m => exact h
          | bool b =>
            cases b with
            | true => exact ih.2 tb r hr h
            | false => exact ih.2 eb r hr h
      | mixinCall nm =>
        simp only [renderNode] at h ⊢
        cases hm : lookupMixin tbl nm with
        | none => rw [hm] at h; exact h
        | some body => rw [hm] at h; exact ih.2 body r hr h
    · intro ns r hr h
      cases ns with
      | nil => simpa [renderL] using h
      | cons n rest =>
        simp only [renderL] at h ⊢
        cases hn : renderNode f tbl ctx n with
        | error e =>
          rw [hn] at h
          have he : Except.error e ≠ (Except.error RenderError.DepthExceeded :
              Except RenderError String) := by
            intro hcon
            rw [hcon] at h
            exact hr h.symm
          rw [ih.1 n (Except.error e) he hn]
          exact h
        | ok s =>
          rw [hn] at h
          rw [ih.1 n (Except.ok s) (by simp) hn]
          cases hrest : renderL f tbl ctx rest with
          | error e =>
            rw [hrest] at h
            have he : Except.error e ≠ (Except.error RenderError.DepthExceeded :
                Except RenderError String) := by
              intro hcon
              rw [hcon] at h
              exact hr h.symm
            rw [ih.2 rest (Except.error e) he hrest]
            exact h
          | ok s2 =>
            rw [hrest] at h
            rw [ih.2 rest (Except.ok s2) (by simp) hrest]
            exact h

/-- C5: a mixin call looks its name up in the document's mixin table,
failing with an undefined-mixin render error when absent, and otherwise
renders the registered body in place under the caller's own context; a
mixin defined once and invoked twice renders its body twice, each call
re-resolving interpolations against the render-time context. -/
theorem claimC5_mixin_call : ∀ (f : Nat) (tbl : MixTable) (ctx : Context) (nm : String)
    (body : List Node) (s : String),
    (lookupMixin tbl nm = none →
      renderNode f tbl ctx (Node.mixinCall nm) = Except.error RenderError.UndefinedMixin) ∧
    (lookupMixin tbl nm = some body →
      renderNode (f + 1) tbl ctx (Node.mixinCall nm) = renderL f tbl ctx body) ∧
    (lookupMixin tbl nm = some body → renderL f tbl ctx body = Except.ok s →
      renderL (f + 3) tbl ctx [Node.mixinCall nm, Node.mixinCall nm] =
        Except.ok (s ++ s)) ∧
    compile [] tmplMixinTwice =
      Except.ok "<button class=\"btn\">Click me!</button><button class=\"btn\">Click me!</button>" ∧
    compile [("who", Value.str "Ana")] tmplMixinInterp =
      Except.ok "<p>Hi Ana!</p><p>Hi Ana!</p>" ∧
    compile [] "+nope" = Except.error (CompileError.render RenderError.UndefinedMixin) := by
  intro f tbl ctx nm body s
  refine ⟨?_, ?_, ?_, rfl, rfl, rfl⟩
  · intro h
    cases f with
    | zero => simp [renderNode, h]
    | succ f' => simp [renderNode, h]
  · intro h
    simp [renderNode, h]
  · intro h hs
    have h1 : renderL (f + 1) tbl ctx body = Except.ok s :=
      (render_fuel_mono f (f + 1) tbl ctx (by omega)).2 body (Except.ok s) (by simp) hs
    simp only [renderL, renderNode, h, h1, hs, String.append_empty]

theorem claimC5_witness :
    renderNode 0 [] [] (Node.mixinCall "nope") =
      Except.error RenderError.UndefinedMixin ∧
    renderNode 1 [("m", [Node.text [TextPart.lit "x"]])] []
      (Node.mixinCall "m") = renderL 0 [("m", [Node.text [TextPart.lit "x"]])] []
        [Node.text [TextPart.lit "x"]] ∧
    renderL 4 [("m", [Node.text [TextPart.lit "x"]])] []
      [Node.mixinCall "m", Node.mixinCall "m"] = Except.ok ("x" ++ "x") :=
  ⟨(claimC5_mixin_call 0 [] [] "nope" [] "").1 rfl,
   (claimC5_mixin_call 0 [("m", [Node.text [TextPart.lit "x"]])] [] "m"
      [Node.text [TextPart.lit "x"]] "").2.1 rfl,
   (claimC5_mixin_call 1 [("m", [Node.text [TextPart.lit "x"]])] [] "m"
      [Node.text [TextPart.lit "x"]] "x").2.2.1 rfl rfl⟩

/-- C6: an element's opening tag is serialized in the fixed order tag
name, id attribute when present, a single class attribute when the class
list is non-empty (classes space-joined in written order, duplicates
kept), then the closing angle bracket; a known void element emits no
closing tag, any other element emits its closing tag after its
children. -/
theorem claimC6_element_serialization : ∀ (f : Nat) (tbl : MixTable) (ctx : Context)
    (t : String) (i : Option String) (cls : List String) (kids : List Node)
    (i0 c0 : String) (cs : List String),
    (isVoid t = true →
      renderNode f tbl ctx (Node.element t i cls kids) = Except.ok (openTag t i cls)) ∧
    (isVoid t = false →
      renderNode (f + 1) tbl ctx (Node.element t i cls kids) =
        (match renderL f tbl ctx kids with
         | Except.error e => Except.error e
         | Except.ok inner =>
           Except.ok (openTag t i cls ++ inner ++ "</" ++ t ++ ">"))) ∧
    openTag t (some i0) (c0 :: cs) =
      "<" ++ t ++ (" id=\"" ++ i0 ++ "\"") ++
        (" class=\"" ++ String.intercalate " " (c0 :: cs) ++ "\"") ++ ">" ∧
    (isVoid "img" = true ∧ isVoid "br" = true ∧ isVoid "input" = true ∧
      isVoid "hr" = true ∧ isVoid "meta" = true ∧ isVoid "div" = false ∧
      isVoid "p" = false) ∧
    compile [] "div#main.a.b" = Except.ok "<div id=\"main\" class=\"a b\"></div>" ∧
    compile [] "div.a.b.a x" = Except.ok "<div class=\"a b a\">x</div>" ∧
    compile [] "br" = Except.ok "<br>" ∧
    compile [] "img.logo" = Except.ok "<img class=\"logo\">" := by
  intro f tbl ctx t i cls kids i0 c0 cs
  refine ⟨?_, ?_, rfl, by decide, rfl, rfl, rfl, rfl⟩
  · intro h
    cases f with
    | zero => simp [renderNode, h]
    | succ f' => simp [renderNode, h]
  · intro h
    simp [renderNode, h]

theorem claimC6_witness :
    renderNode 0 [] [] (Node.element "br" none [] []) =
      Except.ok (openTag "br" none []) ∧
    renderNode 1 [] [] (Node.element "div" (some "main") ["a", "b"] []) =
      (match renderL 0 [] [] ([] : List Node) with
       | Except.error e => Except.error e
       | Except.ok inner =>
         Except.ok (openTag "div" (some "main") ["a", "b"] ++ inner ++ "</" ++ "div" ++ ">")) :=
  ⟨(claimC6_element_serialization 0 [] [] "br" none [] [] "" "" []).1 rfl,
   (claimC6_element_serialization 0 [] [] "div" (some "main") ["a", "b"] [] "" "" []).2.1 rfl⟩

/-- C7: a lex, parse, or render failure aborts the whole compile call
and surfaces exactly that stage's error wrapped in the structured
compile error, with no partial HTML output; the compile result is an
explicit success-or-failure value, never a sentinel conflated with valid
output. -/
theorem claimC7_error_propagation : ∀ (ctx : Context) (src : String),
    (∀ e, tokenize src = Except.error e →
      compile ctx src = Except.error (CompileError.lex e)) ∧
    (∀ toks e, tokenize src = Except.ok toks → parseDocument toks = Except.error e →
      compile ctx src = Except.error (CompileError.parse e)) ∧
    (∀ toks doc e, tokenize src = Except.ok toks → parseDocument toks = Except.ok doc →
      renderDocument ctx doc = Except.error e →
      compile ctx src = Except.error (CompileError.render e)) ∧
    (∀ toks doc h, tokenize src = Except.ok toks → parseDocument toks = Except.ok doc →
      renderDocument ctx doc = Except.ok h → compile ctx src = Except.ok h) ∧
    ((∃ h, compile ctx src = Except.ok h) ∨ (∃ e, compile ctx src = Except.error e)) ∧
    (∀ h e, compile ctx src = Except.ok h → compile ctx src ≠ Except.error e) := by
  intro ctx src
  refine ⟨?_, ?_, ?_, ?_, ?_, ?_⟩
  · intro e h1
    simp [compile, h1]
  · intro toks e h1 h2
    simp [compile, h1, h2]
  · intro toks doc e h1 h2 h3
    simp [compile, h1, h2, h3]
  · intro toks doc h h1 h2 h3
    simp [compile, h1, h2, h3]
  · cases hc : compile ctx src with
    | ok h => exact Or.inl ⟨h, rfl⟩
    | error e => exact Or.inr ⟨e, rfl⟩
  · intro h e h1 h2
    rw [h1] at h2
    exact Except.noConfusion h2

theorem claimC7_witness :
    compile [] "p #\x7bx" = Except.error (CompileError.lex LexError.UnterminatedInterpolation) ∧
    compile [] "else\n  p hi" = Except.error (CompileError.parse ParseError.DanglingElse) ∧
    compile [] "p #\x7bmissing\x7d" =
      Except.error (CompileError.render RenderError.UndefinedVariable) ∧
    compile [] "p hi" = Except.ok "<p>hi</p>" :=
  ⟨(claimC7_error_propagation [] "p #\x7bx").1 LexError.UnterminatedInterpolation rfl,
   (claimC7_error_propagation [] "else\n  p hi").2.1 _ ParseError.DanglingElse rfl rfl,
   (claimC7_error_propagation [] "p #\x7bmissing\x7d").2.2.1 _ _
     RenderError.UndefinedVariable rfl rfl rfl,
   (claimC7_error_propagation [] "p hi").2.2.2.1 _ _ "<p>hi</p>" rfl rfl rfl⟩

theorem render_ctx_ext : ∀ (fuel : Nat) (tbl : MixTable) (c1 c2 : Context),
    (∀ k, lookupVar c1 k = lookupVar c2 k) →
    (∀ n, renderNode fuel tbl c1 n = renderNode fuel tbl c2 n) ∧
    (∀ ns, renderL fuel tbl c1 ns = renderL fuel tbl c2 ns) := by
  intro fuel
  induction fuel with
  | zero =>
    intro tbl c1 c2 hc
    constructor
    · intro n
      cases n with
      | text ps => simp only [renderNode]; exact renderParts_ext c1 c2 hc ps
      | mixinDef nm body => rfl
      | element t i cls kids => rfl
      | conditional v tb eb => rfl
      | mixinCall nm => rfl
    · intro ns
      cases ns with
      | nil => rfl
      | cons n rest => rfl
  | succ f ihf =>
    intro tbl c1 c2 hc
    have ih := ihf tbl c1 c2 hc
    constructor
    · intro n
      cases n with
      | text ps => simp only [renderNode]; exact renderParts_ext c1 c2 hc ps
      | mixinDef nm body => rfl
      | element t i cls kids =>
        simp only [renderNode, ih.2 kids]
      | conditional v tb eb =>
        simp only [renderNode, hc v, ih.2 tb, ih.2 eb]
      | mixinCall nm =>
        simp only [renderNode]
        cases lookupMixin tbl nm with
        | none => rfl
        | some body => simp only [ih.2 body]
    · intro ns
      cases ns with
      | nil => rfl
      | cons n rest =>
        simp only [renderL, ih.1 n, ih.2 rest]

/-- C8: compile is deterministic — two calls with identical template
text and contexts whose contents resolve identically return identical
results, so re-compiling the same input against an unchanged context
yields byte-identical output. -/
theorem claimC8_deterministic : ∀ (c1 c2 : Context) (t1 t2 : String),
    t1 = t2 → (∀ k, lookupVar c1 k = lookupVar c2 k) →
    compile c1 t1 = compile c2 t2 := by
  intro c1 c2 t1 t2 ht hc
  subst ht
  cases htok : tokenize t1 with
  | error e => simp [compile, htok]
  | ok toks =>
    cases hp : parseDocument toks with
    | error e => simp [compile, htok, hp]
    | ok doc =>
      have hr : renderDocument c1 doc = renderDocument c2 doc := by
        simp only [renderDocument,
          (render_ctx_ext (docFuel doc) doc.mixins c1 c2 hc).2 doc.nodes]
      simp [compile, htok, hp, hr]

theorem claimC8_witness :
    compile [("a", Value.str "x"), ("a", Value.str "old")] "p #\x7ba\x7d" =
      compile [("a", Value.str "x")] "p #\x7ba\x7d" :=
  claimC8_deterministic [("a", Value.str "x"), ("a", Value.str "old")]
    [("a", Value.str "x")] "p #\x7ba\x7d" "p #\x7ba\x7d" rfl
    (by
      intro k
      by_cases h : "a" = k
      · subst h; rfl
      · have hb : ("a" == k) = false := by simpa using h
        simp [lookupVar, List.find?, hb])
